import Mathlib

/-!
Verification of the attribute access layer of the pyxattr extension
module (src/xattr.c) against its natural-language specification.

Byte strings are modelled as `List Nat` (one `Nat` per byte).  C strings
(attribute names, namespaces) are NUL-free byte lists; attribute values
are arbitrary byte lists, embedded zero bytes included.  Fallible C
functions become `Except`/`Option`-valued Lean functions, and the
syscall layer of `_generic_get` is modelled by an explicit response
trace, one entry per syscall issued, together with an event trace that
records every syscall and every buffer allocation the routine makes.
-/

/-- The byte value of the ASCII dot separator used by merge_ns. -/
def dotByte : Nat := 46

/-- The errno value ERANGE (buffer too small), as on Linux. -/
def ERANGE : Nat := 34

/-- The errno value ENODATA, as on Linux. -/
def ENODATA : Nat := 61

/-- The errno value ENOATTR; kept distinct from ENODATA as on Darwin,
where both branches of the get_all check are live. -/
def ENOATTR : Nat := 93

/-- The errno value EEXIST. -/
def EEXIST : Nat := 17

/-- The initial I/O buffer size for list and get operations
(ESTIMATE_ATTR_SIZE in xattr.c). -/
def ESTIMATE_ATTR_SIZE : Nat := 1024

/-- The XATTR_CREATE flag value. -/
def XATTR_CREATE : Nat := 1

/-- The XATTR_REPLACE flag value. -/
def XATTR_REPLACE : Nat := 2

/-- Translation of merge_ns (xattr.c lines 186-210).  Combines a
namespace string and an attribute name into a fully-qualified name.
The C function snprintf-formats "%s.%s" into a buffer of size
strlen(ns) + 1 + strlen(name) + 1 and raises a ValueError (here
`Except.error ()`) when the snprintf return count `cnt` fails the
consistency check `cnt >= new_size`.  Malloc failure is not modelled
(allocation is assumed to succeed). -/
def merge_ns (ns : Option (List Nat)) (name : List Nat) : Except Unit (List Nat) :=
  match ns with
  | some nsl =>
    if nsl = [] then
      Except.ok name
    else
      if nsl.length + 1 + name.length + 1 ≤ (nsl ++ dotByte :: name).length then
        Except.error ()
      else
        Except.ok (nsl ++ dotByte :: name)
  | none => Except.ok name

/-- Translation of matches_ns (xattr.c lines 421-431).  Checks whether
an attribute name matches an optional namespace: with a NULL or empty
namespace the name itself is returned; otherwise the suffix after the
namespace and the dot separator is returned exactly when the name is
strictly longer than strlen(ns) + 1, starts with the namespace bytes
(strncmp), and has a dot at position strlen(ns); otherwise `none`. -/
def matches_ns (ns : Option (List Nat)) (name : List Nat) : Option (List Nat) :=
  match ns with
  | none => some name
  | some nsl =>
    if nsl = [] then some name
    else
      if nsl.length + 1 < name.length ∧ name.take nsl.length = nsl ∧
         name[nsl.length]? = some dotByte then
        some (name.drop (nsl.length + 1))
      else
        none

/-- The spec's description of the qualified name (section 3 of the
spec): namespace ++ "." ++ name when the namespace is present and
non-empty, else the name verbatim.  Stated from the spec's words, to be
compared against `merge_ns`. -/
def qualified_name (ns : Option (List Nat)) (name : List Nat) : List Nat :=
  match ns with
  | some nsl => if nsl = [] then name else nsl ++ dotByte :: name
  | none => name

theorem merge_ns_eq_qualified (ns : Option (List Nat)) (name : List Nat) :
    merge_ns ns name = Except.ok (qualified_name ns name) := by
  cases ns with
  | none => rfl
  | some nsl =>
    by_cases h : nsl = []
    · simp [merge_ns, qualified_name, h]
    · have hc : ¬ (nsl.length + 1 + name.length + 1 ≤ (nsl ++ dotByte :: name).length) := by
        simp only [List.length_append, List.length_cons]
        omega
      simp only [merge_ns, qualified_name, if_neg h, if_neg hc]

/-- Full characterization of a successful matches_ns call with a
non-empty namespace: the candidate decomposes as namespace, dot,
non-empty remainder. -/
theorem matches_ns_some_iff (nsl cand res : List Nat) (h : nsl ≠ []) :
    matches_ns (some nsl) cand = some res ↔
      cand = nsl ++ dotByte :: res ∧ res ≠ [] := by
  simp only [matches_ns, if_neg h]
  constructor
  · intro hr
    by_cases hcond : nsl.length + 1 < cand.length ∧ cand.take nsl.length = nsl ∧
        cand[nsl.length]? = some dotByte
    · rw [if_pos hcond] at hr
      obtain ⟨hlen, htake, hget⟩ := hcond
      obtain rfl : res = cand.drop (nsl.length + 1) := by
        injection hr with hr
        exact hr.symm
      refine ⟨?_, ?_⟩
      · have hlt : nsl.length < cand.length := by omega
        have hdrop : cand.drop nsl.length = cand[nsl.length] :: cand.drop (nsl.length + 1) :=
          List.drop_eq_getElem_cons hlt
        have hgetv : cand[nsl.length] = dotByte := by
          rw [List.getElem?_eq_getElem hlt] at hget
          injection hget
        conv_lhs => rw [← List.take_append_drop nsl.length cand]
        rw [hdrop, hgetv, htake]
      · intro hnil
        have hd : (cand.drop (nsl.length + 1)).length = cand.length - (nsl.length + 1) :=
          List.length_drop _ _
        rw [hnil] at hd
        simp at hd
        omega
    · rw [if_neg hcond] at hr
      exact absurd hr (by simp)
  · rintro ⟨rfl, hres⟩
    have hlen : nsl.length + 1 < (nsl ++ dotByte :: res).length := by
      have hpos : 0 < res.length := List.length_pos.mpr hres
      simp only [List.length_append, List.length_cons]
      omega
    have htake : (nsl ++ dotByte :: res).take nsl.length = nsl := List.take_left _ _
    have hget : (nsl ++ dotByte :: res)[nsl.length]? = some dotByte := by
      rw [List.getElem?_append_right (le_refl _)]
      simp
    rw [if_pos ⟨hlen, htake, hget⟩]
    have hsplit : nsl ++ dotByte :: res = (nsl ++ [dotByte]) ++ res := by simp
    have hl : (nsl ++ [dotByte]).length = nsl.length + 1 := by simp
    rw [hsplit, ← hl, List.drop_left]

/-- Claim C5: for every namespace and candidate, matches_ns returns the
candidate unchanged when the namespace is absent or empty, and with a
non-empty namespace returns the suffix after the namespace and the dot
separator exactly when the candidate is strictly longer than the
namespace length plus one, begins with the namespace, and has a dot at
position length of the namespace; in every other case it signals
no-match. -/
theorem claim_c5_matches_ns_spec :
    (∀ cand : List Nat, matches_ns none cand = some cand) ∧
    (∀ cand : List Nat, matches_ns (some []) cand = some cand) ∧
    (∀ nsl cand res : List Nat, nsl ≠ [] →
      (matches_ns (some nsl) cand = some res ↔
        cand = nsl ++ dotByte :: res ∧ res ≠ [])) := by
  refine ⟨fun cand => rfl, fun cand => rfl, fun nsl cand res h => ?_⟩
  exact matches_ns_some_iff nsl cand res h

/-- Witness for claim C5 at a concrete input: stripping namespace "u"
from the name "u.a" yields "a". -/
theorem claim_c5_witness :
    matches_ns (some [117]) [117, 46, 97] = some [97] := by
  refine (claim_c5_matches_ns_spec.2.2 [117] [117, 46, 97] [97] (by decide)).mpr ?_
  exact ⟨by decide, by decide⟩

/-- Claim C6: the qualified name used for the syscall equals
namespace ++ "." ++ name when the namespace is present and non-empty,
and equals the name verbatim otherwise; an empty namespace behaves
exactly like an absent one. -/
theorem claim_c6_merge_ns_qualification :
    (∀ (ns : Option (List Nat)) (name : List Nat),
      merge_ns ns name = Except.ok (qualified_name ns name)) ∧
    (∀ name : List Nat, merge_ns (some []) name = merge_ns none name) := by
  refine ⟨fun ns name => merge_ns_eq_qualified ns name, fun name => rfl⟩

/-- Claim C9: with a non-empty namespace the formatted qualified name
has length exactly strlen(ns) + 1 + strlen(name), strictly below the
allocated buffer size, so the internal snprintf consistency check
passes and the FormatError branch of merge_ns is unreachable. -/
theorem claim_c9_merge_ns_no_truncation (nsl name : List Nat) (h : nsl ≠ []) :
    ∃ full, merge_ns (some nsl) name = Except.ok full ∧
      full.length = nsl.length + 1 + name.length := by
  refine ⟨nsl ++ dotByte :: name, ?_, ?_⟩
  · have := merge_ns_eq_qualified (some nsl) name
    rwa [qualified_name, if_neg h] at this
  · simp only [List.length_append, List.length_cons]
    omega

/-- Witness for claim C9 at a concrete input. -/
theorem claim_c9_witness :
    ∃ full, merge_ns (some [117]) [97] = Except.ok full ∧
      full.length = [117].length + 1 + [97].length :=
  claim_c9_merge_ns_no_truncation [117] [97] (by decide)

/-- Translation of the name-buffer walk shared by xattr_list, get_all
and pylistxattr (xattr.c: for s = buf; s - buf < nret; s += strlen(s) + 1).
The first argument is the remaining buffer contents from the current
cursor on, the second the remaining byte budget nret minus the bytes
already consumed; strlen is takeWhile of non-NUL bytes and, as in C, is
free to run past the budget into any trailing bytes of the buffer. -/
def split_names (buf : List Nat) (n : Nat) : List (List Nat) :=
  if h : n = 0 then []
  else
    let name := buf.takeWhile (fun b => b ≠ 0)
    name :: split_names (buf.drop (name.length + 1)) (n - (name.length + 1))
termination_by n
decreasing_by
  exact Nat.sub_lt (Nat.pos_of_ne_zero h) (Nat.succ_pos _)

/-- Kernel encoding of an attribute-name list: the concatenation of the
NUL-terminated names, as listxattr returns it. -/
def pack_names : List (List Nat) → List Nat
  | [] => []
  | nm :: rest => nm ++ 0 :: pack_names rest

/-- Translation of the filtering loop of xattr_list (xattr.c lines
1090-1113): every NUL-delimited slice within the first n bytes is kept,
stripped, exactly when matches_ns accepts it, in buffer order. -/
def xattr_list_names (ns : Option (List Nat)) (buf : List Nat) (n : Nat) :
    List (List Nat) :=
  (split_names buf n).filterMap (matches_ns ns)

theorem takeWhile_append_nul (nm t : List Nat) (h : ¬ 0 ∈ nm) :
    (nm ++ 0 :: t).takeWhile (fun b => b ≠ 0) = nm := by
  induction nm with
  | nil => simp [List.takeWhile]
  | cons a as ih =>
    have ha : a ≠ 0 := fun hc => h (by simp [hc])
    have has : ¬ 0 ∈ as := fun hc => h (by simp [hc])
    simp only [List.cons_append, List.takeWhile_cons, decide_eq_true_eq, if_pos ha]
    rw [ih has]

theorem split_names_pack (names : List (List Nat)) (extra : List Nat)
    (h : ∀ nm ∈ names, ¬ 0 ∈ nm) :
    split_names (pack_names names ++ extra) (pack_names names).length = names := by
  induction names with
  | nil => simp [pack_names, split_names]
  | cons nm rest ih =>
    have hnm : ¬ 0 ∈ nm := h nm (by simp)
    have hrest : ∀ x ∈ rest, ¬ 0 ∈ x := fun x hx => h x (by simp [hx])
    rw [split_names]
    have hlen : (pack_names (nm :: rest)).length
        = nm.length + 1 + (pack_names rest).length := by
      simp [pack_names]
      omega
    have hne : (pack_names (nm :: rest)).length ≠ 0 := by omega
    rw [dif_neg hne]
    have hbuf : pack_names (nm :: rest) ++ extra = nm ++ 0 :: (pack_names rest ++ extra) := by
      simp [pack_names]
    have htw : (pack_names (nm :: rest) ++ extra).takeWhile (fun b => b ≠ 0) = nm := by
      rw [hbuf]
      exact takeWhile_append_nul nm _ hnm
    simp only [htw]
    have hdrop : (pack_names (nm :: rest) ++ extra).drop (nm.length + 1)
        = pack_names rest ++ extra := by
      rw [hbuf]
      have : nm ++ 0 :: (pack_names rest ++ extra)
          = (nm ++ [0]) ++ (pack_names rest ++ extra) := by simp
      rw [this]
      have hl : (nm ++ [0]).length = nm.length + 1 := by simp
      rw [← hl, List.drop_left]
    rw [hdrop, hlen]
    have : nm.length + 1 + (pack_names rest).length - (nm.length + 1)
        = (pack_names rest).length := by omega
    rw [this, ih hrest]

/-- Claim C7: for every kernel-returned name buffer (a packed sequence
of NUL-terminated names, possibly followed by unused trailing buffer
bytes) and every optional namespace filter, the list operation returns
exactly the NUL-delimited slices within the reported length, filtered
and stripped by matches_ns, in kernel order, with non-matching names
omitted. -/
theorem claim_c7_list_filter (ns : Option (List Nat))
    (names : List (List Nat)) (extra : List Nat)
    (h : ∀ nm ∈ names, ¬ 0 ∈ nm) :
    xattr_list_names ns (pack_names names ++ extra) (pack_names names).length
      = names.filterMap (matches_ns ns) := by
  rw [xattr_list_names, split_names_pack names extra h]

/-- Witness for claim C7 at a concrete input: a buffer holding
"u.a\0v\0" plus trailing garbage, filtered by namespace "u", yields
exactly the stripped name "a". -/
theorem claim_c7_witness :
    xattr_list_names (some [117]) (pack_names [[117, 46, 97], [118]] ++ [99, 99])
        (pack_names [[117, 46, 97], [118]]).length
      = [[117, 46, 97], [118]].filterMap (matches_ns (some [117])) :=
  claim_c7_list_filter (some [117]) [[117, 46, 97], [118]] [99, 99] (by decide)

/-- Outcome of one per-attribute value fetch inside get_all, i.e. of
one _generic_get(_get_obj, ...) call: either the value bytes with the
byte count implicit in the list length, or the io_errno recorded by
the routine. -/
inductive VRes where
  | ok (val : List Nat)
  | err (e : Nat)
deriving DecidableEq, Repr

/-- Translation of the enumeration loop of get_all (xattr.c lines
636-664), over the already NUL-split name list.  For each kernel name
s: names rejected by matches_ns are skipped without a fetch; for a
surviving name the value is fetched under the full name s; a fetch
failing with ENODATA or ENOATTR is skipped silently; any other fetch
error aborts the whole operation, discarding the partial result list
(Py_DECREF of mylist); otherwise the pair of stripped name and value is
appended. -/
def get_all_loop (ns : Option (List Nat)) (fetch : List Nat → VRes) :
    List (List Nat) → Except Nat (List (List Nat × List Nat))
  | [] => Except.ok []
  | s :: rest =>
    match matches_ns ns s with
    | none => get_all_loop ns fetch rest
    | some name =>
      match fetch s with
      | VRes.ok v =>
        match get_all_loop ns fetch rest with
        | Except.ok l => Except.ok ((name, v) :: l)
        | Except.error e => Except.error e
      | VRes.err e =>
        if e = ENODATA ∨ e = ENOATTR then get_all_loop ns fetch rest
        else Except.error e

/-- Claim C4: in the get_all loop a per-attribute fetch failing with
the attribute-vanished errno values ENOATTR or ENODATA is silently
skipped, the enumeration continuing exactly as if the entry were not
listed (so the overall operation still succeeds whenever the rest
does); a fetch failing with any other errno aborts the whole
operation, the partial results being discarded and that errno being
surfaced as the I/O error. -/
theorem claim_c4_get_all_vanished (ns : Option (List Nat))
    (fetch : List Nat → VRes) (s : List Nat) (rest : List (List Nat))
    (hm : (matches_ns ns s).isSome) :
    ((fetch s = VRes.err ENODATA ∨ fetch s = VRes.err ENOATTR) →
      get_all_loop ns fetch (s :: rest) = get_all_loop ns fetch rest) ∧
    (∀ e, fetch s = VRes.err e → e ≠ ENODATA → e ≠ ENOATTR →
      get_all_loop ns fetch (s :: rest) = Except.error e) := by
  obtain ⟨name, hname⟩ := Option.isSome_iff_exists.mp hm
  constructor
  · intro hf
    cases hf with
    | inl hf => simp [get_all_loop, hname, hf, ENODATA]
    | inr hf => simp [get_all_loop, hname, hf, ENOATTR]
  · intro e hf h1 h2
    have hne : ¬ (e = ENODATA ∨ e = ENOATTR) := by
      rintro (hc | hc) <;> [exact h1 hc; exact h2 hc]
    simp [get_all_loop, hname, hf, hne]

/-- Witness for claim C4 at a concrete input: a single listed name
whose fetch reports ENOATTR is skipped, yielding the empty result. -/
theorem claim_c4_witness :
    get_all_loop none (fun _ => VRes.err ENOATTR) ([97] :: [])
      = get_all_loop none (fun _ => VRes.err ENOATTR) [] :=
  (claim_c4_get_all_vanished none (fun _ => VRes.err ENOATTR) [97] []
    (by decide)).1 (Or.inr rfl)

/-- Claim C10: in the get_all loop with a non-empty namespace filter, a
surviving name is fetched under the full kernel-listed name s while the
result pair carries the stripped name, and the full name decomposes as
namespace, dot separator, stripped name. -/
theorem claim_c10_get_all_full_name (nsl s name : List Nat)
    (fetch : List Nat → VRes) (v : List Nat) (rest : List (List Nat))
    (l : List (List Nat × List Nat))
    (hns : nsl ≠ [])
    (hm : matches_ns (some nsl) s = some name)
    (hf : fetch s = VRes.ok v)
    (hr : get_all_loop (some nsl) fetch rest = Except.ok l) :
    get_all_loop (some nsl) fetch (s :: rest) = Except.ok ((name, v) :: l) ∧
      s = nsl ++ dotByte :: name := by
  constructor
  · simp [get_all_loop, hm, hf, hr]
  · exact ((matches_ns_some_iff nsl s name hns).mp hm).1

/-- Witness for claim C10 at a concrete input: name "u.a" under
namespace "u" is fetched in full and paired with stripped name "a". -/
theorem claim_c10_witness :
    get_all_loop (some [117]) (fun _ => VRes.ok [7]) ([117, 46, 97] :: [])
        = Except.ok (([97], [7]) :: []) ∧
      [117, 46, 97] = [117] ++ dotByte :: [97] :=
  claim_c10_get_all_full_name [117] [117, 46, 97] [97]
    (fun _ => VRes.ok [7]) [7] [] []
    (by decide) (by decide) rfl rfl

/-- Result of one raw getter syscall as _generic_get sees it: the
non-negative ssize_t count, or failure with the errno value. -/
inductive SysResult where
  | ok (n : Nat)
  | err (e : Nat)
deriving DecidableEq, Repr

/-- Observable events of one _generic_get invocation: a probe syscall
(NULL buffer, zero size), a real fetch syscall at the current buffer
size, a PyMem_Malloc of the given size, or a PyMem_Realloc to the
given size. -/
inductive GGEvent where
  | probe
  | fetch (size : Nat)
  | alloc (size : Nat)
  | realloc (size : Nat)
deriving DecidableEq, Repr

/-- Overall outcome of _generic_get: success with the returned byte
count and the final buffer size, an I/O error recorded in io_errno, or
exhaustion of the modelled syscall response trace. -/
inductive GGResult where
  | success (res : Nat) (size : Nat)
  | ioError (e : Nat)
  | starved
deriving DecidableEq, Repr

/-- Translation of the retry loop of _generic_get (xattr.c lines
385-406), consuming one response per syscall issued: a successful fetch
returns its count; a fetch failing with ERANGE re-probes for the exact
required size, reallocates to exactly that size and retries; a probe
failure or a fetch failure with any other errno returns that errno as
the I/O error. -/
def gg_loop : List SysResult → Nat → GGResult × List GGEvent
  | [], _ => (GGResult.starved, [])
  | SysResult.ok n :: _, size => (GGResult.success n size, [GGEvent.fetch size])
  | SysResult.err e :: rest, size =>
    if e = ERANGE then
      match rest with
      | [] => (GGResult.starved, [GGEvent.fetch size, GGEvent.probe])
      | SysResult.err e2 :: _ =>
        (GGResult.ioError e2, [GGEvent.fetch size, GGEvent.probe])
      | SysResult.ok k :: rest2 =>
        ((gg_loop rest2 k).1,
          GGEvent.fetch size :: GGEvent.probe :: GGEvent.realloc k :: (gg_loop rest2 k).2)
    else (GGResult.ioError e, [GGEvent.fetch size])

/-- Translation of the buffer-initialization phase plus retry loop of
_generic_get (xattr.c lines 346-409).  With a zero incoming size the
routine probes first: a probe answer of zero returns immediately with
zero bytes and no allocation or further syscall, and a non-zero answer
k leads to a malloc of exactly k bytes; with a non-zero size and no
pre-existing buffer it mallocs that size; with a pre-existing buffer it
reuses it as-is. -/
def generic_get (responses : List SysResult) (size : Nat) (hasBuf : Bool) :
    GGResult × List GGEvent :=
  if size = 0 ∨ hasBuf = false then
    if size = 0 then
      match responses with
      | [] => (GGResult.starved, [])
      | SysResult.err e :: _ => (GGResult.ioError e, [GGEvent.probe])
      | SysResult.ok 0 :: _ => (GGResult.success 0 0, [GGEvent.probe])
      | SysResult.ok (k + 1) :: rest =>
        ((gg_loop rest (k + 1)).1,
          GGEvent.probe :: GGEvent.alloc (k + 1) :: (gg_loop rest (k + 1)).2)
    else
      ((gg_loop responses size).1, GGEvent.alloc size :: (gg_loop responses size).2)
  else gg_loop responses size

/-- A fetch failure with an errno other than ERANGE ends the loop at
once with that errno, the failing fetch being the only syscall. -/
theorem gg_loop_err_not_erange (e : Nat) (rest : List SysResult) (size : Nat)
    (he : e ≠ ERANGE) :
    gg_loop (SysResult.err e :: rest) size
      = (GGResult.ioError e, [GGEvent.fetch size]) := by
  cases rest with
  | nil => simp [gg_loop, he]
  | cons r2 rest2 =>
    cases r2 with
    | ok k => simp [gg_loop, he]
    | err e2 => simp [gg_loop, he]

/-- The first event of a non-starved loop entry is always the real
fetch at the current buffer size. -/
theorem gg_loop_head_fetch (r : SysResult) (rest : List SysResult) (size : Nat) :
    ∃ tail, (gg_loop (r :: rest) size).2 = GGEvent.fetch size :: tail := by
  cases r with
  | ok n => exact ⟨[], rfl⟩
  | err e =>
    by_cases he : e = ERANGE
    · subst he
      cases rest with
      | nil => exact ⟨[GGEvent.probe], by simp [gg_loop]⟩
      | cons r2 rest2 =>
        cases r2 with
        | ok k =>
          exact ⟨GGEvent.probe :: GGEvent.realloc k :: (gg_loop rest2 k).2, by
            simp [gg_loop]⟩
        | err e2 => exact ⟨[GGEvent.probe], by simp [gg_loop]⟩
    · exact ⟨[], by rw [gg_loop_err_not_erange e rest size he]⟩

/-- Claim C2: a fetch failure is retried exactly when the errno is
ERANGE: on ERANGE the routine re-probes, reallocates to exactly the
size the probe reports and retries the loop at that size (a probe
failure surfacing its errno); on any other errno the routine returns an
I/O error carrying that errno verbatim after the single failing fetch,
with no retry and no further syscall. -/
theorem claim_c2_generic_get_retry (rest : List SysResult) (size e : Nat) :
    (e ≠ ERANGE → gg_loop (SysResult.err e :: rest) size
        = (GGResult.ioError e, [GGEvent.fetch size])) ∧
    (∀ k rest2, rest = SysResult.ok k :: rest2 →
      gg_loop (SysResult.err ERANGE :: rest) size
        = ((gg_loop rest2 k).1,
            GGEvent.fetch size :: GGEvent.probe :: GGEvent.realloc k
              :: (gg_loop rest2 k).2)) ∧
    (∀ e2 rest2, rest = SysResult.err e2 :: rest2 →
      gg_loop (SysResult.err ERANGE :: rest) size
        = (GGResult.ioError e2, [GGEvent.fetch size, GGEvent.probe])) := by
  refine ⟨fun he => gg_loop_err_not_erange e rest size he, ?_, ?_⟩
  · rintro k rest2 rfl
    simp [gg_loop]
  · rintro e2 rest2 rfl
    simp [gg_loop]

/-- Witness for claim C2 at a concrete input: a fetch failing with
errno 13 is not retried and surfaces errno 13 verbatim. -/
theorem claim_c2_witness :
    gg_loop (SysResult.err 13 :: []) 1024
      = (GGResult.ioError 13, [GGEvent.fetch 1024]) :=
  (claim_c2_generic_get_retry [] 1024 13).1 (by decide)

/-- Claim C3: with zero incoming capacity the routine first probes for
the required size k; if k is zero it returns immediately with zero
bytes, the probe being the only syscall and no allocation happening;
otherwise it allocates a buffer of exactly k bytes and only then issues
the real fetch, at size exactly k. -/
theorem claim_c3_generic_get_zero_size (responses : List SysResult) (hasBuf : Bool) :
    (∀ rest, responses = SysResult.ok 0 :: rest →
      generic_get responses 0 hasBuf = (GGResult.success 0 0, [GGEvent.probe])) ∧
    (∀ k rest, responses = SysResult.ok k :: rest → k ≠ 0 →
      generic_get responses 0 hasBuf
        = ((gg_loop rest k).1,
            GGEvent.probe :: GGEvent.alloc k :: (gg_loop rest k).2)) ∧
    (∀ k r rest, responses = SysResult.ok k :: r :: rest → k ≠ 0 →
      ∃ tail, (generic_get responses 0 hasBuf).2
        = GGEvent.probe :: GGEvent.alloc k :: GGEvent.fetch k :: tail) := by
  refine ⟨?_, ?_, ?_⟩
  · rintro rest rfl
    simp [generic_get]
  · rintro k rest rfl hk
    obtain ⟨k, rfl⟩ := Nat.exists_eq_succ_of_ne_zero hk
    simp [generic_get]
  · rintro k r rest rfl hk
    obtain ⟨m, rfl⟩ := Nat.exists_eq_succ_of_ne_zero hk
    obtain ⟨tail, htail⟩ := gg_loop_head_fetch r rest (m + 1)
    refine ⟨tail, ?_⟩
    have heq : generic_get (SysResult.ok (m + 1) :: r :: rest) 0 hasBuf
        = ((gg_loop (r :: rest) (m + 1)).1,
            GGEvent.probe :: GGEvent.alloc (m + 1) :: (gg_loop (r :: rest) (m + 1)).2) := by
      simp [generic_get]
    rw [heq, htail]

/-- Witness for claim C3 at a concrete input: a probe answering zero
ends the call with zero bytes after that single syscall. -/
theorem claim_c3_witness :
    generic_get (SysResult.ok 0 :: []) 0 false
      = (GGResult.success 0 0, [GGEvent.probe]) :=
  (claim_c3_generic_get_zero_size (SysResult.ok 0 :: []) false).1 [] rfl

/-- The extended-attribute store of one filesystem object: an ordered
association of full attribute names to value byte strings. -/
abbrev FsState : Type := List (List Nat × List Nat)

/-- Lookup of a full attribute name in the store. -/
def kget : FsState → List Nat → Option (List Nat)
  | [], _ => none
  | (n, v) :: rest, name => if n = name then some v else kget rest name

/-- In-place replacement of the value bound to a name in the store. -/
def kreplace : FsState → List Nat → List Nat → FsState
  | [], _, _ => []
  | (n, v) :: rest, name, value =>
    if n = name then (name, value) :: rest
    else (n, v) :: kreplace rest name value

/-- Modelled from the spec: the setxattr syscall family, which is
outside the repository (xattr.c calls into the kernel through
_set_obj).  Per section 4.6 of the spec, flag 0 creates or replaces,
XATTR_CREATE fails with EEXIST when the attribute exists, and
XATTR_REPLACE fails when it is absent. -/
def k_setxattr (st : FsState) (name value : List Nat) (flags : Nat) :
    Except Nat FsState :=
  match kget st name with
  | some _ =>
    if flags = XATTR_CREATE then Except.error EEXIST
    else Except.ok (kreplace st name value)
  | none =>
    if flags = XATTR_REPLACE then Except.error ENODATA
    else Except.ok (st ++ [(name, value)])

/-- Modelled from the spec: the getxattr syscall family with a buffer
of the given capacity, which is outside the repository.  Per sections
4.1 and 4.4 of the spec, a missing attribute reports an errno
(ENODATA), a buffer smaller than the value reports ERANGE, and
otherwise the whole value is written and its byte count returned. -/
def k_getxattr (st : FsState) (name : List Nat) (size : Nat) : VRes :=
  match kget st name with
  | none => VRes.err ENODATA
  | some v => if size < v.length then VRes.err ERANGE else VRes.ok v

/-- Modelled from the spec: the probe form of getxattr (NULL buffer,
zero capacity), which reports the exact byte count the value currently
requires. -/
def k_getprobe (st : FsState) (name : List Nat) : Except Nat Nat :=
  match kget st name with
  | none => Except.error ENODATA
  | some v => Except.ok v.length

/-- Outcome of _generic_get run against the kernel model, the returned
buffer contents included. -/
inductive GGData where
  | success (bs : List Nat)
  | ioError (e : Nat)
  | outOfFuel
deriving DecidableEq, Repr

/-- The retry loop of _generic_get (xattr.c lines 385-406) run against
the kernel model of a fixed filesystem state, with explicit fuel
standing in for the unbounded C while loop. -/
def gg_kernel_loop (st : FsState) (name : List Nat) : Nat → Nat → GGData
  | 0, _ => GGData.outOfFuel
  | fuel + 1, size =>
    match k_getxattr st name size with
    | VRes.ok v => GGData.success v
    | VRes.err e =>
      if e = ERANGE then
        match k_getprobe st name with
        | Except.ok k => gg_kernel_loop st name fuel k
        | Except.error e2 => GGData.ioError e2
      else GGData.ioError e

/-- Buffer initialization plus retry loop of _generic_get (xattr.c
lines 366-407) against the kernel model: a zero incoming size probes
first, an answer of zero returning at once with the empty value. -/
def gg_kernel (st : FsState) (name : List Nat) (fuel size : Nat) : GGData :=
  if size = 0 then
    match k_getprobe st name with
    | Except.error e => GGData.ioError e
    | Except.ok 0 => GGData.success []
    | Except.ok (k + 1) => gg_kernel_loop st name fuel (k + 1)
  else gg_kernel_loop st name fuel size

/-- Result of the xattr_get facade as the binding layer sees it: the
exact value bytes built by PyBytes_FromStringAndSize(buf, nret), a
Python-level formatting error, an IOError with its errno, or fuel
exhaustion of the model. -/
inductive PyGetRes where
  | bytes (bs : List Nat)
  | formatErr
  | ioError (e : Nat)
  | outOfFuel
deriving DecidableEq, Repr

/-- Translation of xattr_get (xattr.c lines 509-556): qualify the name
with merge_ns, fetch through _generic_get seeded with
ESTIMATE_ATTR_SIZE and a NULL buffer, and return the nret bytes of the
buffer verbatim. -/
def xattr_get (st : FsState) (ns : Option (List Nat)) (name : List Nat)
    (fuel : Nat) : PyGetRes :=
  match merge_ns ns name with
  | Except.error _ => PyGetRes.formatErr
  | Except.ok full =>
    match gg_kernel st full fuel ESTIMATE_ATTR_SIZE with
    | GGData.success bs => PyGetRes.bytes bs
    | GGData.ioError e => PyGetRes.ioError e
    | GGData.outOfFuel => PyGetRes.outOfFuel

/-- Result of the xattr_set facade: Python None together with the new
filesystem state, a Python-level formatting error, or an IOError. -/
inductive PySetRes where
  | done (st : FsState)
  | formatErr
  | ioError (e : Nat)
deriving DecidableEq, Repr

/-- Translation of xattr_set (xattr.c lines 780-843): qualify the name
with merge_ns and pass name, value bytes (embedded NULs included, the
length being passed separately) and flags straight to the setxattr
syscall. -/
def xattr_set (st : FsState) (ns : Option (List Nat)) (name value : List Nat)
    (flags : Nat) : PySetRes :=
  match merge_ns ns name with
  | Except.error _ => PySetRes.formatErr
  | Except.ok full =>
    match k_setxattr st full value flags with
    | Except.ok st2 => PySetRes.done st2
    | Except.error e => PySetRes.ioError e

theorem kget_kreplace_self (st : FsState) (name value : List Nat)
    (h : (kget st name).isSome) :
    kget (kreplace st name value) name = some value := by
  induction st with
  | nil => simp [kget] at h
  | cons p rest ih =>
    obtain ⟨n, v⟩ := p
    by_cases hn : n = name
    · simp [kget, kreplace, hn]
    · simp only [kget, if_neg hn] at h
      simp only [kreplace, if_neg hn, kget, if_neg hn]
      exact ih h

theorem kget_append_self (st : FsState) (name value : List Nat)
    (h : kget st name = none) :
    kget (st ++ [(name, value)]) name = some value := by
  induction st with
  | nil => simp [kget]
  | cons p rest ih =>
    obtain ⟨n, v⟩ := p
    by_cases hn : n = name
    · simp [kget, if_pos hn] at h
    · simp only [kget, if_neg hn] at h
      show kget ((n, v) :: (rest ++ [(name, value)])) name = some value
      simp only [kget, if_neg hn]
      exact ih h

theorem kget_after_set (st : FsState) (name value : List Nat) (flags : Nat)
    (st2 : FsState) (h : k_setxattr st name value flags = Except.ok st2) :
    kget st2 name = some value := by
  unfold k_setxattr at h
  cases hg : kget st name with
  | some w =>
    rw [hg] at h
    by_cases hf : flags = XATTR_CREATE
    · rw [if_pos hf] at h
      exact absurd h (by simp)
    · rw [if_neg hf] at h
      injection h with h
      subst h
      exact kget_kreplace_self st name value (by simp [hg])
  | none =>
    rw [hg] at h
    by_cases hf : flags = XATTR_REPLACE
    · rw [if_pos hf] at h
      exact absurd h (by simp)
    · rw [if_neg hf] at h
      injection h with h
      subst h
      exact kget_append_self st name value hg

/-- With the attribute present and at least two fuel units, the
adaptive fetch against a fixed kernel state returns the exact stored
value, whatever the initial non-zero buffer size: either the first
fetch fits, or the ERANGE re-probe yields the exact size and the
second fetch fits. -/
theorem gg_kernel_present (st : FsState) (name v : List Nat) (fuel size : Nat)
    (hv : kget st name = some v) (hfuel : 2 ≤ fuel) (hsize : size ≠ 0) :
    gg_kernel st name fuel size = GGData.success v := by
  obtain ⟨f, rfl⟩ : ∃ f, fuel = f + 2 := ⟨fuel - 2, by omega⟩
  unfold gg_kernel
  rw [if_neg hsize]
  show gg_kernel_loop st name (f + 1 + 1) size = GGData.success v
  by_cases hlen : size < v.length
  · have h1 : k_getxattr st name size = VRes.err ERANGE := by
      simp [k_getxattr, hv, hlen]
    have h2 : k_getprobe st name = Except.ok v.length := by
      simp [k_getprobe, hv]
    have h3 : k_getxattr st name v.length = VRes.ok v := by
      simp [k_getxattr, hv]
    simp [gg_kernel_loop, h1, h2, h3]
  · have h1 : k_getxattr st name size = VRes.ok v := by
      simp [k_getxattr, hv, hlen]
    simp [gg_kernel_loop, h1]

/-- Claim C1: for every target state, optional namespace, attribute
name and value byte string (embedded zero bytes and the empty value
included), a successful set followed by get on the unchanged resulting
state returns exactly the value, byte-for-byte: the result is the
kernel-reported byte count worth of buffer, not a NUL-terminated
string. -/
theorem claim_c1_set_get_round_trip (st : FsState) (ns : Option (List Nat))
    (name value : List Nat) (st2 : FsState) (fuel : Nat)
    (hfuel : 2 ≤ fuel)
    (hset : xattr_set st ns name value 0 = PySetRes.done st2) :
    xattr_get st2 ns name fuel = PyGetRes.bytes value := by
  unfold xattr_set at hset
  rw [merge_ns_eq_qualified] at hset
  dsimp only [] at hset
  cases hk : k_setxattr st (qualified_name ns name) value 0 with
  | error e =>
    rw [hk] at hset
    exact absurd hset (by simp)
  | ok stx =>
    rw [hk] at hset
    simp only [PySetRes.done.injEq] at hset
    subst hset
    have hkv : kget stx (qualified_name ns name) = some value :=
      kget_after_set st (qualified_name ns name) value 0 stx hk
    unfold xattr_get
    rw [merge_ns_eq_qualified]
    dsimp only []
    rw [gg_kernel_present stx (qualified_name ns name) value fuel
        ESTIMATE_ATTR_SIZE hkv hfuel (by decide)]

/-- Witness for claim C1 at a concrete input: setting value 0x00 0x05
0x00 (zero bytes embedded) under name "u.a" on an empty store, then
reading it back, returns exactly those three bytes. -/
theorem claim_c1_witness :
    xattr_get [([117, 46, 97], [0, 5, 0])] none [117, 46, 97] 2
      = PyGetRes.bytes [0, 5, 0] :=
  claim_c1_set_get_round_trip [] none [117, 46, 97] [0, 5, 0]
    [([117, 46, 97], [0, 5, 0])] 2 (by decide) rfl

/-- The target-kind tag of xattr.c (typedef enum {T_FD, T_PATH, T_LINK}). -/
inductive target_e where
  | T_FD
  | T_PATH
  | T_LINK
deriving DecidableEq, Repr

/-- The payload of a target_t: the borrowed path bytes, or the
borrowed file descriptor. -/
inductive TargetVal where
  | name (p : List Nat)
  | fd (n : Nat)
deriving DecidableEq, Repr

/-- The target_t structure of xattr.c. -/
structure target_t where
  type : target_e
  val : TargetVal
deriving DecidableEq, Repr

/-- The polymorphic item argument as the binding layer hands it over:
a byte-string path, a text path together with the result of its
filesystem encoding (none when unencodable), a value convertible to a
file descriptor, or anything else (PyObject_AsFileDescriptor fails). -/
inductive PyObj where
  | pyBytes (p : List Nat)
  | pyStr (enc : Option (List Nat))
  | pyFd (fd : Nat)
  | pyOther
deriving DecidableEq, Repr

/-- Failure classes of convert_obj: the UnicodeEncodeError propagated
from PyUnicode_AsEncodedString, or the TypeError raised for an argument
that is neither a string nor convertible to a descriptor. -/
inductive ConvErr where
  | encodingError
  | invalidArgument
deriving DecidableEq, Repr

/-- Translation of convert_obj (xattr.c lines 152-182): a byte string
or an encodable text string becomes a T_LINK target when nofollow is
set and a T_PATH target otherwise; a descriptor-convertible value
becomes a T_FD target, nofollow being ignored; an unencodable text
string propagates the encoding error; anything else raises TypeError
before any syscall can be issued. -/
def convert_obj : PyObj → Bool → Except ConvErr target_t
  | PyObj.pyBytes p, nofollow =>
    Except.ok ⟨if nofollow then target_e.T_LINK else target_e.T_PATH,
      TargetVal.name p⟩
  | PyObj.pyStr enc, nofollow =>
    match enc with
    | none => Except.error ConvErr.encodingError
    | some p =>
      Except.ok ⟨if nofollow then target_e.T_LINK else target_e.T_PATH,
        TargetVal.name p⟩
  | PyObj.pyFd fd, _ => Except.ok ⟨target_e.T_FD, TargetVal.fd fd⟩
  | PyObj.pyOther, _ => Except.error ConvErr.invalidArgument

/-- The three syscall variants of each primitive in the platform
adapter: the plain by-path form, the no-follow (symlink) form, and the
by-descriptor form. -/
inductive SysVariant where
  | plainV
  | nofollowV
  | fdV
deriving DecidableEq, Repr

/-- Translation of the dispatch of _list_obj (xattr.c lines 276-284). -/
def _list_obj_variant : target_e → SysVariant
  | target_e.T_FD => SysVariant.fdV
  | target_e.T_LINK => SysVariant.nofollowV
  | target_e.T_PATH => SysVariant.plainV

/-- Translation of the dispatch of _get_obj (xattr.c lines 286-294). -/
def _get_obj_variant : target_e → SysVariant
  | target_e.T_FD => SysVariant.fdV
  | target_e.T_LINK => SysVariant.nofollowV
  | target_e.T_PATH => SysVariant.plainV

/-- Translation of the dispatch of _set_obj (xattr.c lines 296-304). -/
def _set_obj_variant : target_e → SysVariant
  | target_e.T_FD => SysVariant.fdV
  | target_e.T_LINK => SysVariant.nofollowV
  | target_e.T_PATH => SysVariant.plainV

/-- Translation of the dispatch of _remove_obj (xattr.c lines 306-313). -/
def _remove_obj_variant : target_e → SysVariant
  | target_e.T_FD => SysVariant.fdV
  | target_e.T_LINK => SysVariant.nofollowV
  | target_e.T_PATH => SysVariant.plainV

/-- Claim C8: for each of list, get, set and remove, a path-like target
with nofollow unset routes to the plain path variant, a path-like
target with nofollow set routes to the no-follow variant, and a
descriptor target routes to the fd variant with nofollow having no
effect; an input that is neither usable path-like nor convertible to a
descriptor fails target construction with the InvalidArgument
condition, so no target exists for any dispatch to act on. -/
theorem claim_c8_target_dispatch :
    (∀ (p : List Nat) (nofollow : Bool) (t : target_t),
      (convert_obj (PyObj.pyBytes p) nofollow = Except.ok t ∨
       convert_obj (PyObj.pyStr (some p)) nofollow = Except.ok t) →
      (_list_obj_variant t.type
          = (if nofollow then SysVariant.nofollowV else SysVariant.plainV) ∧
        _get_obj_variant t.type
          = (if nofollow then SysVariant.nofollowV else SysVariant.plainV) ∧
        _set_obj_variant t.type
          = (if nofollow then SysVariant.nofollowV else SysVariant.plainV) ∧
        _remove_obj_variant t.type
          = (if nofollow then SysVariant.nofollowV else SysVariant.plainV))) ∧
    (∀ (fd : Nat) (nofollow : Bool),
      convert_obj (PyObj.pyFd fd) nofollow = convert_obj (PyObj.pyFd fd) true ∧
      ∀ t, convert_obj (PyObj.pyFd fd) nofollow = Except.ok t →
        (_list_obj_variant t.type = SysVariant.fdV ∧
          _get_obj_variant t.type = SysVariant.fdV ∧
          _set_obj_variant t.type = SysVariant.fdV ∧
          _remove_obj_variant t.type = SysVariant.fdV)) ∧
    (∀ nofollow : Bool,
      convert_obj PyObj.pyOther nofollow = Except.error ConvErr.invalidArgument) := by
  refine ⟨?_, ?_, fun nofollow => rfl⟩
  · rintro p nofollow t (ht | ht) <;>
    · injection ht with ht
      subst ht
      cases nofollow <;> exact ⟨rfl, rfl, rfl, rfl⟩
  · intro fd nofollow
    refine ⟨rfl, fun t ht => ?_⟩
    injection ht with ht
    subst ht
    exact ⟨rfl, rfl, rfl, rfl⟩

/-- Witness for claim C8 at a concrete input: a byte path with
nofollow set routes every operation to the no-follow variant. -/
theorem claim_c8_witness :
    _list_obj_variant (target_t.mk target_e.T_LINK (TargetVal.name [97])).type
        = SysVariant.nofollowV ∧
      _get_obj_variant (target_t.mk target_e.T_LINK (TargetVal.name [97])).type
        = SysVariant.nofollowV ∧
      _set_obj_variant (target_t.mk target_e.T_LINK (TargetVal.name [97])).type
        = SysVariant.nofollowV ∧
      _remove_obj_variant (target_t.mk target_e.T_LINK (TargetVal.name [97])).type
        = SysVariant.nofollowV := by
  have h := claim_c8_target_dispatch.1 [97] true
    (target_t.mk target_e.T_LINK (TargetVal.name [97])) (Or.inl rfl)
  simpa using h
